import Mathlib

/-!
# distrex `ccoms/comms.c`: lock client

A shallow embedding of the C lock client (`src/ccoms/comms.c`): the byte-level
helpers it calls (`strlen`, `sprintf`, `strcmp`, `recvfrom`), the sequential
function `Lock`, and an interleaving semantics of the two threads of the
program: the main thread, which runs `main`, `Lock`, `Spinlock` and `Unlock`,
and the thread that runs `heartbeat`.

Conventions.
* A byte is a `UInt8`; a `List UInt8` standing for memory lists the bytes from
  the pointer on.  A C string `r` sits in memory as `r ++ [0]`.
* Program counters are named after the source line of the statement that the
  thread executes next.
* Results of library calls that the program cannot control (allocation, send,
  receive, thread creation, mutex calls) are supplied by an `Env` value, one
  per step.
* The `int` returned by `sprintf` and the `size_t` lengths are natural numbers:
  the formatted length of a command-line argument is bounded by the operating
  system's argument limit, far below `INT_MAX`.
* A block remembers how many bytes were requested and which bytes were written
  from its start, so a write past the end is visible (`Block.fits`); what such a
  write does to the allocator is outside the model, and `free` is not modelled.
* Accesses to `cxn.close` are sequentially consistent.
-/

namespace Distrex

/-! ## Bytes and C strings -/

/-- `BUFSIZE` (line 24). -/
def BUFSIZE : Nat := 1024

/-- `SPINWAIT` (line 28), seconds. -/
def SPINWAIT : Nat := 3

/-- The characters of the literal `"LOCK"`. -/
def litLOCK : List UInt8 := [76, 79, 67, 75]

/-- The characters of the literal `"BEAT"`. -/
def litBEAT : List UInt8 := [66, 69, 65, 84]

/-- The characters of the literal `"UNLOCK"`. -/
def litUNLOCK : List UInt8 := [85, 78, 76, 79, 67, 75]

/-- The characters of the literal `"ok"`. -/
def litOk : List UInt8 := [111, 107]

/-- Memory image of a C string: its characters followed by the terminator. -/
def cstring (chars : List UInt8) : List UInt8 := chars ++ [0]

/-- The characters of the C string stored at the start of `mem`: the bytes
before the first NUL. -/
def cchars (mem : List UInt8) : List UInt8 := mem.takeWhile (fun b => b != 0)

/-- `strlen`: number of bytes before the first NUL. -/
def strlen (mem : List UInt8) : Nat := (cchars mem).length

/-- `sizeof` of a string literal: its characters and the terminator. -/
def sizeofLit (lit : List UInt8) : Nat := lit.length + 1

/-- A block returned by `malloc`: the number of bytes requested and the bytes
written from its start.  `bytes` may be longer than `cap`: the excess was
written past the end of the allocation. -/
structure Block where
  cap : Nat
  bytes : List UInt8
  deriving DecidableEq, Repr

/-- `malloc n` when it succeeds: a block of `n` bytes, nothing written yet. -/
def malloc (n : Nat) : Block := { cap := n, bytes := [] }

/-- `sprintf(buf, "<lit>%s", arg)`: writes the literal, the characters of the C
string `arg` and a terminating NUL from the start of `buf`; returns the number
of characters written, the NUL not counted. -/
def sprintf (buf : Block) (lit arg : List UInt8) : Block × Nat :=
  ({ buf with bytes := lit ++ cchars arg ++ [0] }, lit.length + strlen arg)

/-- The write of `sprintf` stayed inside the allocation. -/
def Block.fits (b : Block) : Bool := b.bytes.length ≤ b.cap

/-- The datagram handed to `sendto(fd, buf, len, ...)`: the first `len` bytes
of the buffer. -/
def payload (buf : Block) (len : Nat) : List UInt8 := buf.bytes.take len

/-- `memset(&recvbuf, '\0', sizeof(recvbuf))`. -/
def zeroed (n : Nat) : List UInt8 := List.replicate n 0

/-- `recvfrom(fd, recvbuf, BUFSIZE, ...)` on success: the datagram, cut to the
buffer size, overwrites the start of the buffer; the rest keeps its content. -/
def recvfrom (recvbuf : List UInt8) (n : Nat) (dgram : List UInt8) : List UInt8 :=
  dgram.take n ++ recvbuf.drop (min dgram.length n)

/-- `strcmp(a, b)`: compares byte by byte up to and including the first NUL.
`none` when the comparison would run past the end of either region. -/
def strcmp : List UInt8 → List UInt8 → Option Int
  | a :: as, b :: bs =>
    if a != b then some ((a.toNat : Int) - (b.toNat : Int))
    else if a == 0 then some 0
    else strcmp as bs
  | _, _ => none

/-! ## The connection and `Lock` -/

/-- `struct Connection` (lines 32-41).  `resource` is the memory the pointer
`cxn->resource` points to.  The socket, the server address and the two
handles are constant over a session and carry no data the model reads. -/
structure Connection where
  resource : List UInt8
  close : Bool
  deriving DecidableEq, Repr

/-- Outcomes of the library calls made during one step. -/
structure Env where
  /-- The first `malloc` of the step returns a block. -/
  mallocOk : Bool
  /-- The second `malloc` of the step returns a block. -/
  malloc2Ok : Bool
  /-- The `sendto` call does not return `-1`. -/
  sendOk : Bool
  /-- The datagram `recvfrom` delivers; `none` when it returns `-1`. -/
  reply : Option (List UInt8)
  /-- The `pthread_create` call returns `0`. -/
  createOk : Bool
  /-- The `pthread_mutex_lock` or `pthread_mutex_unlock` call returns `0`. -/
  mutexOk : Bool
  deriving DecidableEq, Repr

/-- The `return` statement through which `Lock` leaves. -/
inductive LockExit
  | allocFail   -- line 118
  | sendFail    -- line 123
  | recvFail    -- line 127
  | acquired    -- line 130
  | createFail  -- line 132
  | rejected    -- line 134
  deriving DecidableEq, Repr

/-- What one call of `Lock` did. -/
structure LockResult where
  /-- The connection after the call. -/
  cxn : Connection
  /-- The return statement taken. -/
  exit : LockExit
  /-- The datagrams sent, in order. -/
  sent : List (List UInt8)
  /-- A heartbeat thread was created. -/
  spawned : Bool
  deriving DecidableEq, Repr

/-- The value `Lock` returns. -/
def LockResult.ret (r : LockResult) : Bool := r.exit == LockExit.acquired

/-- Lines 116 and 120 of `Lock`: the request buffer and its length. -/
def lockRequest (cxn : Connection) : Block × Nat :=
  sprintf (malloc (sizeofLit litLOCK + strlen cxn.resource)) litLOCK cxn.resource

/-- `Lock` (lines 109-136). -/
def Lock (cxn : Connection) (env : Env) : LockResult :=
  let recvbuf := zeroed BUFSIZE
  if !env.mallocOk then
    { cxn := cxn, exit := .allocFail, sent := [], spawned := false }
  else
    let (buf, len) := lockRequest cxn
    if !env.sendOk then
      { cxn := cxn, exit := .sendFail, sent := [], spawned := false }
    else
      let sent := [payload buf len]
      match env.reply with
      | none => { cxn := cxn, exit := .recvFail, sent := sent, spawned := false }
      | some dgram =>
        let recvbuf := recvfrom recvbuf BUFSIZE dgram
        if strcmp recvbuf (cstring litOk) == some 0 then
          if env.createOk then
            { cxn := cxn, exit := .acquired, sent := sent, spawned := true }
          else
            { cxn := cxn, exit := .createFail, sent := sent, spawned := false }
        else
          { cxn := cxn, exit := .rejected, sent := sent, spawned := false }

/-- The local variables of `heartbeat` once lines 172-179 have run. -/
structure HbLocals where
  buf : Block
  len : Nat
  buf2 : Block
  len2 : Nat
  deriving DecidableEq, Repr

/-- Lines 172-179 of `heartbeat` when both allocations succeed. -/
def hbBuffers (cxn : Connection) : HbLocals :=
  let b := sprintf (malloc (strlen (cstring litBEAT) + strlen cxn.resource)) litBEAT cxn.resource
  let b2 := sprintf (malloc (strlen (cstring litUNLOCK) + strlen cxn.resource)) litUNLOCK cxn.resource
  { buf := b.1, len := b.2, buf2 := b2.1, len2 := b2.2 }

/-- An environment in which every call succeeds and the server answers `reply`. -/
def envOk (reply : List UInt8) : Env :=
  { mallocOk := true, malloc2Ok := true, sendOk := true, reply := some reply,
    createOk := true, mutexOk := true }

/-! ## The two threads -/

/-- The two threads of the process. -/
inductive Tid
  | main
  | hb
  deriving DecidableEq, Repr

/-- Program counter of the main thread: the line it executes next.  A call of
`Lock` is one step (lines 100 and 139): no other thread exists while it runs. -/
inductive MainPc
  | l96   -- cxn.close = false
  | l100  -- if (!Lock(&cxn))
  | l139  -- Spinlock: while (!Lock(cxn))
  | l140  -- Spinlock: sleep(SPINWAIT)
  | l103  -- sleep(holdtime)
  | l148  -- Unlock: pthread_mutex_lock
  | l150  -- Unlock: cxn->close = true
  | l151  -- Unlock: pthread_mutex_unlock
  | l154  -- Unlock: pthread_join
  | l106  -- return 0
  deriving DecidableEq, Repr

/-- Program counter of the heartbeat thread.  `idle`: no thread was created.
Lines 164-179 (pointer tests, the two allocations, the two `sprintf`) touch only
the thread's locals and are one step.  The pointer tests of lines 165 and 168
never fire: `main` passes the address of its connection, whose resource is a
string. -/
inductive HbPc
  | idle
  | l164  -- entry, lines 164-179
  | l176  -- return NULL (an allocation failed)
  | l182  -- pthread_mutex_lock
  | l184  -- if (cxn->close)
  | l185  -- sendto UNLOCK
  | l188  -- pthread_mutex_unlock, the send failed
  | l190  -- return NULL
  | l194  -- pthread_mutex_unlock, the send succeeded
  | l196  -- return NULL
  | l198  -- pthread_mutex_unlock
  | l200  -- sendto BEAT
  | l203  -- return NULL (the BEAT send failed)
  | l205  -- sleep(SPINWAIT)
  deriving DecidableEq, Repr

/-- The heartbeat thread has returned. -/
def HbPc.terminated : HbPc → Bool
  | .l176 | .l190 | .l196 | .l203 => true
  | _ => false

/-- The heartbeat thread exists and has not returned. -/
def HbPc.running (pc : HbPc) : Bool := pc != .idle && !pc.terminated

/-- State of the process. The last four fields are history variables: they
record what happened and are never read by a step. -/
structure Sys where
  /-- The connection `cxn` of `main`, shared with the heartbeat thread. -/
  cxn : Connection
  /-- Owner of `mutex`, `none` when it is free. -/
  mutex : Option Tid
  mainPc : MainPc
  hbPc : HbPc
  /-- The locals `buf`, `len`, `buf2`, `len2` of `heartbeat`. -/
  locals : HbLocals
  /-- The datagrams sent so far, oldest first, each with the sending thread. -/
  wire : List (Tid × List UInt8)
  /-- The exits of the calls of `Lock` so far, oldest first. -/
  lockLog : List LockExit
  /-- The values of `cxn->close` read at line 184 so far, oldest first. -/
  checkLog : List Bool
  /-- Number of `sendto` calls that returned `-1`. -/
  sendErrs : Nat
  /-- Number of mutex calls that returned non-zero (the `perror` calls). -/
  mutexErrs : Nat
  deriving DecidableEq, Repr

/-- `pthread_mutex_lock` by thread `t`.  A call that returns `0` waits until the
mutex is free and takes it: the step is not enabled (`none`) while the mutex is
held.  A call that returns an error leaves the mutex as it is. -/
def mutexLock (m : Option Tid) (t : Tid) (ok : Bool) : Option (Option Tid) :=
  if ok then (if m = none then some (some t) else none) else some m

/-- `pthread_mutex_unlock` by thread `t`: a call that returns `0` frees a mutex
the thread owns; a failing call, or a call by a thread that does not own the
mutex, leaves it as it is. -/
def mutexUnlock (m : Option Tid) (t : Tid) (ok : Bool) : Option Tid :=
  if ok && m == some t then none else m

/-- Count of `perror` calls after a mutex call with outcome `ok`. -/
def countErr (n : Nat) (ok : Bool) : Nat := if ok then n else n + 1

/-- The state after a call of `Lock` from line 100 or 139 returned; `retry` is
where `main` goes on when the call returned false. -/
def afterLock (s : Sys) (r : LockResult) (retry : MainPc) : Sys :=
  { s with
    cxn := r.cxn
    wire := s.wire ++ r.sent.map (fun m => (Tid.main, m))
    lockLog := s.lockLog ++ [r.exit]
    sendErrs := if r.exit = LockExit.sendFail then s.sendErrs + 1 else s.sendErrs
    hbPc := if r.spawned then HbPc.l164 else s.hbPc
    mainPc := if r.ret then MainPc.l103 else retry }

/-- One step of `Spinlock` (lines 138-142), run by the main thread; `none` at
lines outside the function. -/
def Spinlock (s : Sys) (e : Env) : Option Sys :=
  match s.mainPc with
  | .l139 => some (afterLock s (Lock s.cxn e) .l140)
  | .l140 => some { s with mainPc := .l139 }
  | _ => none

/-- One step of `Unlock` (lines 144-155), run by the main thread; `none` while
`pthread_mutex_lock` or `pthread_join` waits, and at lines outside the
function.  `pthread_join` returns once the heartbeat thread has returned. -/
def Unlock (s : Sys) (e : Env) : Option Sys :=
  match s.mainPc with
  | .l148 =>
    match mutexLock s.mutex .main e.mutexOk with
    | none => none
    | some m => some { s with mutex := m, mainPc := .l150,
                              mutexErrs := countErr s.mutexErrs e.mutexOk }
  | .l150 => some { s with cxn := { s.cxn with close := true }, mainPc := .l151 }
  | .l151 => some { s with mutex := mutexUnlock s.mutex .main e.mutexOk, mainPc := .l154,
                           mutexErrs := countErr s.mutexErrs e.mutexOk }
  | .l154 => if s.hbPc.terminated then some { s with mainPc := .l106 } else none
  | _ => none

/-- One step of the main thread (`main`, lines 96-106, with the calls of
`Spinlock` and `Unlock`); `none` when the thread waits or has returned. -/
def main (s : Sys) (e : Env) : Option Sys :=
  match s.mainPc with
  | .l96 => some { s with cxn := { s.cxn with close := false }, mainPc := .l100 }
  | .l100 => some (afterLock s (Lock s.cxn e) .l139)
  | .l139 => Spinlock s e
  | .l140 => Spinlock s e
  | .l103 => some { s with mainPc := .l148 }
  | .l148 => Unlock s e
  | .l150 => Unlock s e
  | .l151 => Unlock s e
  | .l154 => Unlock s e
  | .l106 => none

/-- One step of `heartbeat` (lines 164-206); `none` when the thread does not
exist, waits or has returned. -/
def heartbeat (s : Sys) (e : Env) : Option Sys :=
  match s.hbPc with
  | .idle => none
  | .l164 =>
    if e.mallocOk && e.malloc2Ok then
      some { s with locals := hbBuffers s.cxn, hbPc := .l182 }
    else some { s with hbPc := .l176 }
  | .l182 =>
    match mutexLock s.mutex .hb e.mutexOk with
    | none => none
    | some m => some { s with mutex := m, hbPc := .l184,
                              mutexErrs := countErr s.mutexErrs e.mutexOk }
  | .l184 =>
    some { s with checkLog := s.checkLog ++ [s.cxn.close],
                  hbPc := if s.cxn.close then .l185 else .l198 }
  | .l185 =>
    if e.sendOk then
      some { s with wire := s.wire ++ [(Tid.hb, payload s.locals.buf2 s.locals.len2)],
                    hbPc := .l194 }
    else some { s with sendErrs := s.sendErrs + 1, hbPc := .l188 }
  | .l188 => some { s with mutex := mutexUnlock s.mutex .hb e.mutexOk, hbPc := .l190,
                           mutexErrs := countErr s.mutexErrs e.mutexOk }
  | .l194 => some { s with mutex := mutexUnlock s.mutex .hb e.mutexOk, hbPc := .l196,
                           mutexErrs := countErr s.mutexErrs e.mutexOk }
  | .l198 => some { s with mutex := mutexUnlock s.mutex .hb e.mutexOk, hbPc := .l200,
                           mutexErrs := countErr s.mutexErrs e.mutexOk }
  | .l200 =>
    if e.sendOk then
      some { s with wire := s.wire ++ [(Tid.hb, payload s.locals.buf s.locals.len)],
                    hbPc := .l205 }
    else some { s with sendErrs := s.sendErrs + 1, hbPc := .l203 }
  | .l205 => some { s with hbPc := .l182 }
  | .l176 => none
  | .l190 => none
  | .l196 => none
  | .l203 => none

/-- One step of the process: thread `t` runs, the library answers `e`. -/
def step (s : Sys) (t : Tid) (e : Env) : Option Sys :=
  match t with
  | .main => main s e
  | .hb => heartbeat s e

/-- Runs a schedule: the threads take steps in the listed order. `none` when
some listed step is not enabled. -/
def run (s : Sys) : List (Tid × Env) → Option Sys
  | [] => some s
  | (t, e) :: rest =>
    match step s t e with
    | none => none
    | some s' => run s' rest

/-- The process when `main` reaches line 96: `rsrc` is the memory of the
resource string (lines 66-70 and 94), `junk` the value the uninitialised field
`cxn.close` happens to hold; the mutex is initialised and free, the locals of
`heartbeat` do not exist yet. -/
def init (rsrc : List UInt8) (junk : Bool) : Sys :=
  { cxn := { resource := rsrc, close := junk }
    mutex := none
    mainPc := .l96
    hbPc := .idle
    locals := { buf := malloc 0, len := 0, buf2 := malloc 0, len2 := 0 }
    wire := []
    lockLog := []
    checkLog := []
    sendErrs := 0
    mutexErrs := 0 }

/-- The states the process can be in. -/
def Reachable (rsrc : List UInt8) (junk : Bool) (s : Sys) : Prop :=
  ∃ sched, run (init rsrc junk) sched = some s

/-- The next statement of thread `t` reads or writes `cxn.close`: lines 96 and
150 in the main thread, line 184 in the heartbeat thread. -/
def flagAccess (s : Sys) : Tid → Bool
  | .main => s.mainPc == .l96 || s.mainPc == .l150
  | .hb => s.hbPc == .l184

/-- Some call of `Lock` has returned true. -/
def acquired (s : Sys) : Bool := s.lockLog.contains LockExit.acquired

/-- The call of `Unlock` has returned. -/
def released (s : Sys) : Bool := s.mainPc == .l106

/-- The datagrams sent by thread `t`, oldest first. -/
def sentBy (s : Sys) (t : Tid) : List (List UInt8) :=
  (s.wire.filter (fun m => m.1 == t)).map (fun m => m.2)

/-- All datagrams sent, oldest first. -/
def Sys.messages (s : Sys) : List (List UInt8) := s.wire.map (fun m => m.2)

/-- The environment of a step in which the one call that can fail fails. -/
def envFail : Env :=
  { mallocOk := false, malloc2Ok := false, sendOk := false, reply := none,
    createOk := false, mutexOk := false }

/-! ## Vocabulary of the invariants -/

/-- The datagram `Lock` sends for the resource stored in `rsrc`. -/
def lockDgram (rsrc : List UInt8) : List UInt8 :=
  payload (lockRequest ⟨rsrc, false⟩).1 (lockRequest ⟨rsrc, false⟩).2

/-- The datagram line 200 sends for the resource stored in `rsrc`. -/
def beatDgram (rsrc : List UInt8) : List UInt8 :=
  payload (hbBuffers ⟨rsrc, false⟩).buf (hbBuffers ⟨rsrc, false⟩).len

/-- The datagram line 185 sends for the resource stored in `rsrc`. -/
def unlockDgram (rsrc : List UInt8) : List UInt8 :=
  payload (hbBuffers ⟨rsrc, false⟩).buf2 (hbBuffers ⟨rsrc, false⟩).len2

/-- A call of `Lock` that left through `x` got past its `sendto`. -/
def LockExit.sentRequest : LockExit → Bool
  | .allocFail | .sendFail => false
  | _ => true

/-- The datagrams the calls of `Lock` in `log` sent. -/
def lockWire (rsrc : List UInt8) : List LockExit → List (Tid × List UInt8)
  | [] => []
  | x :: xs =>
    (if x.sentRequest then [(Tid.main, lockDgram rsrc)] else []) ++ lockWire rsrc xs

/-- The main thread has not yet had a call of `Lock` return true. -/
def MainPc.acquiring : MainPc → Bool
  | .l96 | .l100 | .l139 | .l140 => true
  | _ => false

/-- The value of `cxn.close` when the main thread is at a line after line 96:
true from the write of line 150 on. -/
def MainPc.closeSet : MainPc → Bool
  | .l151 | .l154 | .l106 => true
  | _ => false

/-- Lines of the main thread between its lock and unlock calls. -/
def MainPc.critical : MainPc → Bool
  | .l150 | .l151 => true
  | _ => false

/-- Lines of the heartbeat thread between its lock and unlock calls. -/
def HbPc.critical : HbPc → Bool
  | .l184 | .l185 | .l188 | .l194 | .l198 => true
  | _ => false

/-- The owner of the mutex as the two program counters tell it. -/
def ownerAt (m : MainPc) (h : HbPc) : Option Tid :=
  if m.critical then some Tid.main else if h.critical then some Tid.hb else none

/-- The heartbeat thread has run lines 172-179 with both allocations succeeding. -/
def HbPc.hasLocals : HbPc → Bool
  | .idle | .l164 | .l176 => false
  | _ => true

/-- Lines the heartbeat thread reaches only after a `sendto` returned `-1`. -/
def HbPc.afterSendErr : HbPc → Bool
  | .l188 | .l190 | .l203 => true
  | _ => false

/-- How the log of flag reads and the datagrams sent hang together at each line
of the heartbeat thread; `L` are the datagrams of the main thread, `B` and `U`
the heartbeat and the release datagram. -/
def hbShape (B U : Tid × List UInt8) (L : List (Tid × List UInt8)) :
    HbPc → List Bool → List (Tid × List UInt8) → Prop
  | .idle, log, w | .l164, log, w | .l176, log, w => log = [] ∧ w = L
  | .l182, log, w | .l184, log, w | .l205, log, w =>
    ∃ b, log = List.replicate b false ∧ w = L ++ List.replicate b B
  | .l198, log, w | .l200, log, w | .l203, log, w =>
    ∃ b, log = List.replicate (b + 1) false ∧ w = L ++ List.replicate b B
  | .l185, log, w | .l188, log, w | .l190, log, w =>
    ∃ b, log = List.replicate b false ++ [true] ∧ w = L ++ List.replicate b B
  | .l194, log, w | .l196, log, w =>
    ∃ b, log = List.replicate b false ++ [true] ∧ w = L ++ List.replicate b B ++ [U]

/-- The invariant of the process started on the resource memory `rsrc`. -/
structure Inv (rsrc : List UInt8) (s : Sys) : Prop where
  res : s.cxn.resource = rsrc
  idle_iff : s.hbPc = .idle ↔ s.mainPc.acquiring = true
  log_pre : s.mainPc.acquiring = true → LockExit.acquired ∉ s.lockLog
  log_post : s.mainPc.acquiring = false → LockExit.acquired ∈ s.lockLog
  joined : s.mainPc = .l106 → s.hbPc.terminated = true
  close : s.mainPc ≠ .l96 → s.cxn.close = s.mainPc.closeSet
  locals : s.hbPc.hasLocals = true → s.locals = hbBuffers s.cxn
  sendErr : s.hbPc.afterSendErr = true → 0 < s.sendErrs
  mutex : s.mutexErrs = 0 → s.mutex = ownerAt s.mainPc s.hbPc
  excl : s.mutexErrs = 0 → ¬ (s.mainPc.critical = true ∧ s.hbPc.critical = true)
  shape : hbShape (Tid.hb, beatDgram rsrc) (Tid.hb, unlockDgram rsrc)
            (lockWire rsrc s.lockLog) s.hbPc s.checkLog s.wire

/-! ## Concrete inputs -/

/-- The resource id `42` of the round-trip scenario. -/
def rid42 : List UInt8 := [52, 50]

/-- A reply that is not `ok`. -/
def replyNo : List UInt8 := [110, 111]

/-- A whole session on resource `42`: line 96, a rejected and an accepted call
of `Lock`, one heartbeat iteration, `Unlock` up to its `pthread_join`, the
heartbeat iteration that sees the flag, and the return of `Unlock`. -/
def schedSession : List (Tid × Env) :=
  [(.main, envOk []), (.main, envOk replyNo), (.main, envOk litOk),
   (.hb, envOk []), (.hb, envOk []), (.hb, envOk []), (.hb, envOk []), (.hb, envOk []),
   (.main, envOk []), (.main, envOk []), (.main, envOk []), (.main, envOk []),
   (.hb, envOk []), (.hb, envOk []), (.hb, envOk []), (.hb, envOk []), (.hb, envOk []),
   (.main, envOk [])]

/-- The state at the end of `schedSession`. -/
def demoDone : Sys := (run (init (cstring rid42) true) schedSession).getD (init [] false)

/-- Up to the first BEAT send: line 96, an accepted call of `Lock`, and the
heartbeat thread up to line 200. -/
def schedToBeat : List (Tid × Env) :=
  [(.main, envOk []), (.main, envOk litOk),
   (.hb, envOk []), (.hb, envOk []), (.hb, envOk []), (.hb, envOk [])]

/-- The state at the end of `schedToBeat`: the heartbeat thread is about to
send its first BEAT. -/
def demoAtBeat : Sys := (run (init (cstring rid42) true) schedToBeat).getD (init [] false)

/-- As `schedToBeat`, then the BEAT send fails and `main` moves on to `Unlock`. -/
def schedAbandon : List (Tid × Env) :=
  schedToBeat ++ [(.hb, envFail), (.main, envOk [])]

/-- The state at the end of `schedAbandon`: the heartbeat thread has returned
through line 203, `main` is about to lock the mutex in `Unlock`. -/
def demoAbandoned : Sys := (run (init (cstring rid42) true) schedAbandon).getD (init [] false)

/-- Line 96, an accepted call of `Lock`, the sleep of line 103 and a successful
`pthread_mutex_lock` in `Unlock`. -/
def schedToWrite : List (Tid × Env) :=
  [(.main, envOk []), (.main, envOk litOk), (.main, envOk []), (.main, envOk [])]

/-- The state at the end of `schedToWrite`: `Unlock` is about to set the flag. -/
def demoAtWrite : Sys := (run (init (cstring rid42) true) schedToWrite).getD (init [] false)

/-- Line 96, an accepted call of `Lock`, the heartbeat thread up to line 184
(it holds the mutex), then `main` through line 103 and a `pthread_mutex_lock`
call in `Unlock` that returns an error. -/
def schedLockFails : List (Tid × Env) :=
  [(.main, envOk []), (.main, envOk litOk), (.hb, envOk []), (.hb, envOk []),
   (.main, envOk []), (.main, envFail)]

/-- The state at the end of `schedLockFails`: `Unlock` is about to set the flag
while the heartbeat thread holds the mutex. -/
def demoLockFailed : Sys :=
  (run (init (cstring rid42) true) schedLockFails).getD (init [] false)


/-- The state after the heartbeat thread has sent its first BEAT from `demoAtBeat`. -/
def demoAfterBeat : Sys := (step demoAtBeat .hb (envOk [])).getD (init [] false)

/-- The state after `Unlock` has set the flag from `demoAtWrite`. -/
def demoAfterWrite : Sys := (step demoAtWrite .main (envOk [])).getD (init [] false)

/-- The resource id `42` of the round-trip scenario, as stored in memory. -/
def demoCxn : Connection := { resource := cstring [52, 50], close := false }

/-- A reply whose first three bytes are `o`, `k`, NUL, followed by one more byte. -/
def replyOkNul : List UInt8 := [111, 107, 0, 120]

/-! ## A session in which every call succeeds -/

theorem cchars_cstring (r : List UInt8) (h : ∀ b ∈ r, b ≠ 0) : cchars (cstring r) = r := by
  unfold cchars cstring
  rw [List.takeWhile_append_of_pos (fun a ha => by simpa using h a ha)]
  simp

theorem strlen_cstring (r : List UInt8) (h : ∀ b ∈ r, b ≠ 0) : strlen (cstring r) = r.length := by
  unfold strlen
  rw [cchars_cstring r h]

theorem byte_sub_ne_zero (a b : UInt8) (h : a ≠ b) : (a.toNat : Int) - (b.toNat : Int) ≠ 0 := by
  intro h0
  apply h
  apply UInt8.ext
  omega

theorem strcmp_ok_iff (m : List UInt8) :
    strcmp m (cstring litOk) = some 0 ↔ ∃ rest, m = 111 :: 107 :: 0 :: rest := by
  constructor
  · intro h
    match m, h with
    | a :: b :: c :: rest, h =>
      simp only [cstring, litOk, List.cons_append, List.nil_append, strcmp] at h
      by_cases ha : a = 111
      · subst ha
        by_cases hb : b = 107
        · subst hb
          by_cases hc : c = 0
          · subst hc
            exact ⟨rest, rfl⟩
          · exfalso
            simp [hc] at h
            exact hc (UInt8.ext (by simpa using h))
        · exfalso
          have := byte_sub_ne_zero b 107 hb
          simp [hb] at h
          exact this h
      · exfalso
        have := byte_sub_ne_zero a 111 ha
        simp [ha] at h
        exact this h
    | [a, b], h =>
      exfalso
      simp only [cstring, litOk, List.cons_append, List.nil_append, strcmp] at h
      by_cases ha : a = 111
      · subst ha
        by_cases hb : b = 107
        · subst hb
          simp at h
        · have := byte_sub_ne_zero b 107 hb
          simp [hb] at h
          exact this h
      · have := byte_sub_ne_zero a 111 ha
        simp [ha] at h
        exact this h
    | [a], h =>
      exfalso
      simp only [cstring, litOk, List.cons_append, List.nil_append, strcmp] at h
      by_cases ha : a = 111
      · subst ha
        simp at h
      · have := byte_sub_ne_zero a 111 ha
        simp [ha] at h
        exact this h
    | [], h => simp [strcmp] at h
  · rintro ⟨rest, rfl⟩
    simp [cstring, litOk, strcmp]

/-- The receive buffer of `Lock` after a datagram arrived, by datagram shape. -/
theorem recvfrom_zeroed (d : List UInt8) :
    ∃ rest, recvfrom (zeroed BUFSIZE) BUFSIZE d
      = d.getD 0 0 :: d.getD 1 0 :: d.getD 2 0 :: rest := by
  match d with
  | [] => exact ⟨List.replicate 1021 0, rfl⟩
  | [a] => exact ⟨List.replicate 1021 0, rfl⟩
  | [a, b] => exact ⟨List.replicate 1021 0, rfl⟩
  | a :: b :: c :: rest =>
    exact ⟨rest.take 1021 ++ (zeroed BUFSIZE).drop (min (rest.length + 3) BUFSIZE),
      by simp [recvfrom, BUFSIZE, List.take_succ_cons]⟩

/-- The reply test of line 128 on the receive buffer: the comparison succeeds
exactly when the characters of the datagram before its first NUL are `ok`. -/
theorem strcmp_recvbuf (d : List UInt8) :
    strcmp (recvfrom (zeroed BUFSIZE) BUFSIZE d) (cstring litOk) = some 0 ↔ cchars d = litOk := by
  obtain ⟨rest, h⟩ := recvfrom_zeroed d
  rw [h, strcmp_ok_iff]
  match d with
  | [] => simp [cchars, litOk]
  | [a] =>
    by_cases ha : a = 0 <;> simp [cchars, litOk, List.takeWhile_cons, ha]
  | [a, b] =>
    by_cases ha : a = 0 <;> by_cases hb : b = 0 <;>
      simp [cchars, litOk, List.takeWhile_cons, ha, hb]
  | a :: b :: c :: rest =>
    by_cases ha : a = 0 <;> by_cases hb : b = 0 <;> by_cases hc : c = 0 <;>
      simp [cchars, litOk, List.takeWhile_cons, ha, hb, hc]

theorem lockRequest_eq (cxn : Connection) :
    lockRequest cxn = ({ cap := 5 + strlen cxn.resource,
                         bytes := litLOCK ++ cchars cxn.resource ++ [0] },
                       4 + strlen cxn.resource) := by
  simp [lockRequest, sprintf, malloc, sizeofLit, litLOCK]

theorem hbBuffers_eq (cxn : Connection) :
    hbBuffers cxn =
      { buf := { cap := 4 + strlen cxn.resource,
                 bytes := litBEAT ++ cchars cxn.resource ++ [0] },
        len := 4 + strlen cxn.resource,
        buf2 := { cap := 6 + strlen cxn.resource,
                  bytes := litUNLOCK ++ cchars cxn.resource ++ [0] },
        len2 := 6 + strlen cxn.resource } := by
  have h1 : strlen (cstring litBEAT) = 4 := by decide
  have h2 : strlen (cstring litUNLOCK) = 6 := by decide
  simp [hbBuffers, sprintf, malloc, h1, h2]
  simp [litBEAT, litUNLOCK]

theorem payload_sprintf (lit chars : List UInt8) (n : Nat) (h : n = lit.length + chars.length) :
    payload { cap := c, bytes := lit ++ chars ++ [0] } n = lit ++ chars := by
  subst h
  simp [payload, List.take_append_eq_append_take]

theorem lockPayload_eq (r : List UInt8) (h : ∀ b ∈ r, b ≠ 0) (close : Bool) :
    payload (lockRequest ⟨cstring r, close⟩).1 (lockRequest ⟨cstring r, close⟩).2
      = litLOCK ++ r := by
  rw [lockRequest_eq]
  simp only [cchars_cstring r h, strlen_cstring r h]
  exact payload_sprintf _ _ _ (by simp [litLOCK])

theorem beatPayload_eq (r : List UInt8) (h : ∀ b ∈ r, b ≠ 0) (close : Bool) :
    payload (hbBuffers ⟨cstring r, close⟩).buf (hbBuffers ⟨cstring r, close⟩).len
      = litBEAT ++ r := by
  rw [hbBuffers_eq]
  simp only [cchars_cstring r h, strlen_cstring r h]
  exact payload_sprintf _ _ _ (by simp [litBEAT])

theorem unlockPayload_eq (r : List UInt8) (h : ∀ b ∈ r, b ≠ 0) (close : Bool) :
    payload (hbBuffers ⟨cstring r, close⟩).buf2 (hbBuffers ⟨cstring r, close⟩).len2
      = litUNLOCK ++ r := by
  rw [hbBuffers_eq]
  simp only [cchars_cstring r h, strlen_cstring r h]
  exact payload_sprintf _ _ _ (by simp [litUNLOCK])

/-- `Lock` once the request went out and a datagram came back. -/
theorem Lock_of_reply (cxn : Connection) (env : Env) (body : List UInt8)
    (hm : env.mallocOk = true) (hs : env.sendOk = true) (hr : env.reply = some body) :
    Lock cxn env =
      if strcmp (recvfrom (zeroed BUFSIZE) BUFSIZE body) (cstring litOk) = some 0 then
        if env.createOk = true then
          { cxn := cxn, exit := .acquired,
            sent := [payload (lockRequest cxn).1 (lockRequest cxn).2], spawned := true }
        else
          { cxn := cxn, exit := .createFail,
            sent := [payload (lockRequest cxn).1 (lockRequest cxn).2], spawned := false }
      else
        { cxn := cxn, exit := .rejected,
          sent := [payload (lockRequest cxn).1 (lockRequest cxn).2], spawned := false } := by
  simp [Lock, hm, hs, hr]

theorem Lock_sent (cxn : Connection) (env : Env) (hm : env.mallocOk = true)
    (hs : env.sendOk = true) :
    (Lock cxn env).sent = [payload (lockRequest cxn).1 (lockRequest cxn).2] := by
  cases hr : env.reply with
  | none => simp [Lock, hm, hs, hr]
  | some d =>
    rw [Lock_of_reply cxn env d hm hs hr]
    split <;> [split; skip] <;> rfl

theorem lockDgram_eq (cxn : Connection) :
    payload (lockRequest cxn).1 (lockRequest cxn).2 = lockDgram cxn.resource := by
  simp [lockDgram, lockRequest_eq]

theorem beatDgram_eq (cxn : Connection) :
    payload (hbBuffers cxn).buf (hbBuffers cxn).len = beatDgram cxn.resource := by
  simp [beatDgram, hbBuffers_eq]

theorem unlockDgram_eq (cxn : Connection) :
    payload (hbBuffers cxn).buf2 (hbBuffers cxn).len2 = unlockDgram cxn.resource := by
  simp [unlockDgram, hbBuffers_eq]

/-- Every exit of `Lock` returns the connection it was given, has sent the
request exactly when it got past `sendto`, and has created a thread exactly
when it returns true. -/
theorem Lock_shape (cxn : Connection) (env : Env) :
    Lock cxn env =
      { cxn := cxn, exit := (Lock cxn env).exit,
        sent := if (Lock cxn env).exit.sentRequest then [lockDgram cxn.resource] else [],
        spawned := (Lock cxn env).exit == LockExit.acquired } := by
  rw [← lockDgram_eq]
  unfold Lock
  simp only []
  split
  · rfl
  · split
    · rfl
    · split
      · rfl
      · split <;> [split; skip] <;> rfl

theorem lockWire_append (rsrc : List UInt8) (a b : List LockExit) :
    lockWire rsrc (a ++ b) = lockWire rsrc a ++ lockWire rsrc b := by
  induction a with
  | nil => rfl
  | cons x xs ih => simp [lockWire, ih]

/-! ## The invariant holds in every reachable state -/

theorem Inv_init (rsrc : List UInt8) (junk : Bool) : Inv rsrc (init rsrc junk) := by
  constructor <;>
    simp [init, MainPc.acquiring, HbPc.terminated, HbPc.hasLocals, HbPc.afterSendErr, ownerAt,
      MainPc.critical, HbPc.critical, hbShape, lockWire]

set_option maxHeartbeats 4000000 in
theorem Inv_afterLock (s : Sys) (e : Env) (retry : MainPc) (h : Inv rsrc s)
    (hacq : s.mainPc.acquiring = true) (hne : s.mainPc ≠ .l96)
    (hretry : retry = .l139 ∨ retry = .l140) :
    Inv rsrc (afterLock s (Lock s.cxn e) retry) := by
  obtain ⟨cxn, mutex, mainPc, hbPc, locals, wire, lockLog, checkLog, sendErrs, mutexErrs⟩ := s
  obtain ⟨h1, h2, h3, h4, h5, h6, h7, h8, h9, h10, h11⟩ := h
  simp only at h1 h2 h3 h4 h5 h6 h7 h8 h9 h10 h11 hacq hne
  have hidle : hbPc = .idle := h2.mpr hacq
  subst hidle
  have hc : cxn.close = false := by
    rw [h6 hne]
    cases mainPc <;> simp_all [MainPc.acquiring, MainPc.closeSet]
  have hcrit : mainPc.critical = false := by
    cases mainPc <;> simp_all [MainPc.acquiring, MainPc.critical]
  subst h1
  rw [Lock_shape]
  generalize (Lock cxn e).exit = x
  simp only [hbShape] at h11
  obtain ⟨h11a, h11b⟩ := h11
  subst h11a h11b
  rcases hretry with rfl | rfl <;> cases x <;>
    constructor <;>
    simp_all [afterLock, LockResult.ret, MainPc.acquiring, HbPc.terminated, HbPc.hasLocals,
      HbPc.afterSendErr, ownerAt, MainPc.critical, HbPc.critical, hbShape, lockWire,
      lockWire_append, LockExit.sentRequest, MainPc.closeSet]

set_option maxHeartbeats 4000000 in
theorem Inv_main (s s' : Sys) (e : Env) (h : Inv rsrc s) (hs : main s e = some s') :
    Inv rsrc s' := by
  cases hpc : s.mainPc with
  | l100 =>
    simp only [main, Spinlock, hpc, Option.some.injEq] at hs
    subst hs
    exact Inv_afterLock s e _ h (by simp [hpc, MainPc.acquiring]) (by simp [hpc]) (Or.inl rfl)
  | l139 =>
    simp only [main, Spinlock, hpc, Option.some.injEq] at hs
    subst hs
    exact Inv_afterLock s e _ h (by simp [hpc, MainPc.acquiring]) (by simp [hpc]) (Or.inr rfl)
  | l148 =>
    obtain ⟨cxn, mutex, mainPc, hbPc, locals, wire, lockLog, checkLog, sendErrs, mutexErrs⟩ := s
    obtain ⟨h1, h2, h3, h4, h5, h6, h7, h8, h9, h10, h11⟩ := h
    simp only at h1 h2 h3 h4 h5 h6 h7 h8 h9 h10 h11 hpc
    subst hpc
    cases hok : e.mutexOk <;> cases mutex <;> simp [main, Unlock, mutexLock, hok] at hs <;>
      subst hs <;> constructor <;>
      first
      | solve
        | simp_all [MainPc.acquiring, HbPc.terminated, ownerAt, MainPc.critical,
            MainPc.closeSet, hbBuffers_eq, countErr]
      | (intro hm
         simp only [countErr, if_true] at hm
         have h9m := h9 hm
         cases hcr : hbPc.critical
         · simp
         · simp [ownerAt, MainPc.critical, hcr] at h9m)
  | l151 =>
    obtain ⟨cxn, mutex, mainPc, hbPc, locals, wire, lockLog, checkLog, sendErrs, mutexErrs⟩ := s
    obtain ⟨h1, h2, h3, h4, h5, h6, h7, h8, h9, h10, h11⟩ := h
    simp only at h1 h2 h3 h4 h5 h6 h7 h8 h9 h10 h11 hpc
    subst hpc
    simp only [main, Unlock, Option.some.injEq] at hs
    subst hs
    cases hok : e.mutexOk <;> constructor <;>
      simp_all [MainPc.acquiring, HbPc.terminated, ownerAt, MainPc.critical, MainPc.closeSet,
        hbBuffers_eq, countErr, mutexUnlock]
  | l154 =>
    obtain ⟨cxn, mutex, mainPc, hbPc, locals, wire, lockLog, checkLog, sendErrs, mutexErrs⟩ := s
    obtain ⟨h1, h2, h3, h4, h5, h6, h7, h8, h9, h10, h11⟩ := h
    simp only at h1 h2 h3 h4 h5 h6 h7 h8 h9 h10 h11 hpc
    subst hpc
    cases ht : hbPc.terminated <;> simp [main, Unlock, ht] at hs
    subst hs
    constructor <;>
      simp_all [MainPc.acquiring, HbPc.terminated, ownerAt, MainPc.critical, MainPc.closeSet,
        hbBuffers_eq]
  | l106 => simp [main, hpc] at hs
  | _ =>
    obtain ⟨cxn, mutex, mainPc, hbPc, locals, wire, lockLog, checkLog, sendErrs, mutexErrs⟩ := s
    obtain ⟨h1, h2, h3, h4, h5, h6, h7, h8, h9, h10, h11⟩ := h
    simp only at h1 h2 h3 h4 h5 h6 h7 h8 h9 h10 h11 hpc
    subst hpc
    simp only [main, Spinlock, Unlock] at hs
    cases hs
    constructor <;>
      simp_all [MainPc.acquiring, HbPc.terminated, ownerAt,
         MainPc.critical, MainPc.closeSet, hbBuffers_eq]

theorem replicate_snoc_shape {α : Type} (L : List α) (B : α) (b : Nat) :
    L ++ List.replicate b B ++ [B] = L ++ List.replicate (b + 1) B := by
  rw [List.append_assoc, ← List.replicate_succ']

set_option maxHeartbeats 4000000 in
theorem Inv_heartbeat (s s' : Sys) (e : Env) (h : Inv rsrc s) (hs : heartbeat s e = some s') :
    Inv rsrc s' := by
  obtain ⟨cxn, mutex, mainPc, hbPc, locals, wire, lockLog, checkLog, sendErrs, mutexErrs⟩ := s
  obtain ⟨h1, h2, h3, h4, h5, h6, h7, h8, h9, h10, h11⟩ := h
  simp only at h1 h2 h3 h4 h5 h6 h7 h8 h9 h10 h11
  cases hbPc with
  | idle => simp [heartbeat] at hs
  | l176 => simp [heartbeat] at hs
  | l190 => simp [heartbeat] at hs
  | l196 => simp [heartbeat] at hs
  | l203 => simp [heartbeat] at hs
  | l164 =>
    cases hm : (e.mallocOk && e.malloc2Ok) <;> simp only [heartbeat, hm] at hs <;> cases hs <;>
      constructor <;>
      simp_all [HbPc.terminated, HbPc.hasLocals, HbPc.afterSendErr, ownerAt, HbPc.critical,
        hbShape]
  | l205 =>
    simp only [heartbeat] at hs
    cases hs
    constructor <;>
      simp_all [HbPc.terminated, HbPc.hasLocals, HbPc.afterSendErr, ownerAt, HbPc.critical,
        hbShape]
  | l182 =>
    cases hok : e.mutexOk <;> cases mutex <;> simp [heartbeat, mutexLock, hok] at hs <;>
      subst hs <;> constructor <;>
      first
      | solve
        | simp_all [HbPc.terminated, HbPc.hasLocals, HbPc.afterSendErr, ownerAt, HbPc.critical,
            hbShape, countErr]
      | (intro hm
         simp only [countErr, if_true] at hm
         have h9m := h9 hm
         cases hcr : mainPc.critical
         · simp [ownerAt, HbPc.critical, hcr]
         · simp [ownerAt, HbPc.critical, hcr] at h9m)
  | l184 =>
    simp only [heartbeat, Option.some.injEq] at hs
    subst hs
    simp only [hbShape] at h11
    obtain ⟨b, hb1, hb2⟩ := h11
    have k1 : checkLog ++ [false] = List.replicate (b + 1) false := by
      rw [hb1, List.replicate_succ']
    have k2 : checkLog ++ [true] = List.replicate b false ++ [true] := by rw [hb1]
    cases hc : cxn.close <;> constructor <;>
      simp_all [HbPc.terminated, HbPc.hasLocals, HbPc.afterSendErr, ownerAt, HbPc.critical,
        hbShape]
  | l185 =>
    simp only [hbShape] at h11
    obtain ⟨b, hb1, hb2⟩ := h11
    have hl := h7 rfl
    have k : wire ++ [(Tid.hb, payload locals.buf2 locals.len2)]
        = lockWire rsrc lockLog ++ List.replicate b (Tid.hb, beatDgram rsrc)
            ++ [(Tid.hb, unlockDgram rsrc)] := by
      rw [hb2, hl, unlockDgram_eq, h1]
    cases hok : e.sendOk <;> simp only [heartbeat, hok] at hs <;> cases hs <;> constructor <;>
      simp_all [HbPc.terminated, HbPc.hasLocals, HbPc.afterSendErr, ownerAt, HbPc.critical,
        hbShape]
  | l200 =>
    simp only [hbShape] at h11
    obtain ⟨b, hb1, hb2⟩ := h11
    have hl := h7 rfl
    have k : wire ++ [(Tid.hb, payload locals.buf locals.len)]
        = lockWire rsrc lockLog ++ List.replicate (b + 1) (Tid.hb, beatDgram rsrc) := by
      rw [hb2, hl, beatDgram_eq, h1, replicate_snoc_shape]
    cases hok : e.sendOk <;> simp only [heartbeat, hok] at hs <;> cases hs <;> constructor <;>
      simp_all [HbPc.terminated, HbPc.hasLocals, HbPc.afterSendErr, ownerAt, HbPc.critical,
        hbShape]
  | _ =>
    simp only [heartbeat, Option.some.injEq] at hs
    subst hs
    cases hok : e.mutexOk <;> constructor <;>
      simp_all [HbPc.terminated, HbPc.hasLocals, HbPc.afterSendErr, ownerAt, HbPc.critical,
        hbShape, countErr, mutexUnlock]

theorem Inv_step (s s' : Sys) (t : Tid) (e : Env) (h : Inv rsrc s)
    (hs : step s t e = some s') : Inv rsrc s' := by
  cases t
  · exact Inv_main s s' e h hs
  · exact Inv_heartbeat s s' e h hs

theorem Inv_run (sched : List (Tid × Env)) :
    ∀ s s' : Sys, Inv rsrc s → run s sched = some s' → Inv rsrc s' := by
  induction sched with
  | nil =>
    intro s s' h hr
    simp only [run, Option.some.injEq] at hr
    exact hr ▸ h
  | cons c rest ih =>
    intro s s' h hr
    obtain ⟨t, e⟩ := c
    simp only [run] at hr
    cases hst : step s t e with
    | none => simp [hst] at hr
    | some s1 =>
      simp only [hst] at hr
      exact ih s1 s' (Inv_step s s1 t e h hst) hr

theorem Inv_of_reachable {rsrc : List UInt8} {junk : Bool} {s : Sys}
    (h : Reachable rsrc junk s) : Inv rsrc s := by
  obtain ⟨sched, hr⟩ := h
  exact Inv_run sched _ _ (Inv_init rsrc junk) hr

theorem run_append (a b : List (Tid × Env)) :
    ∀ s : Sys, run s (a ++ b) = (run s a).bind (fun s' => run s' b) := by
  induction a with
  | nil => intro s; rfl
  | cons c rest ih =>
    intro s
    obtain ⟨t, e⟩ := c
    simp only [List.cons_append, run]
    cases step s t e with
    | none => rfl
    | some s1 => exact ih s1

theorem Reachable_run {rsrc : List UInt8} {junk : Bool} {s s' : Sys}
    (h : Reachable rsrc junk s) (sched : List (Tid × Env)) (hr : run s sched = some s') :
    Reachable rsrc junk s' := by
  obtain ⟨a, ha⟩ := h
  exact ⟨a ++ sched, by rw [run_append, ha]; exact hr⟩

/-- Once the heartbeat thread has returned no step sends a datagram or moves it. -/
theorem step_after_return (s s' : Sys) (t : Tid) (e : Env) (h : Inv rsrc s)
    (ht : s.hbPc.terminated = true) (hs : step s t e = some s') :
    s'.wire = s.wire ∧ s'.hbPc = s.hbPc := by
  obtain ⟨cxn, mutex, mainPc, hbPc, locals, wire, lockLog, checkLog, sendErrs, mutexErrs⟩ := s
  have h2 := h.idle_iff
  simp only at h2 ht
  cases t with
  | hb =>
    cases hbPc <;> simp [HbPc.terminated] at ht <;> simp [step, heartbeat] at hs
  | main =>
    have hna : mainPc.acquiring = false := by
      cases hq : mainPc.acquiring
      · rfl
      · rw [h2.mpr hq] at ht
        simp [HbPc.terminated] at ht
    cases mainPc <;> simp [MainPc.acquiring] at hna <;>
      simp only [step, main, Spinlock, Unlock] at hs
    · cases hs; exact ⟨rfl, rfl⟩
    · cases hq : mutexLock mutex Tid.main e.mutexOk with
      | none => simp [hq] at hs
      | some m => simp only [hq, Option.some.injEq] at hs; subst hs; exact ⟨rfl, rfl⟩
    · cases hs; exact ⟨rfl, rfl⟩
    · cases hs; exact ⟨rfl, rfl⟩
    · simp only [ht, if_true, Option.some.injEq] at hs
      subst hs; exact ⟨rfl, rfl⟩
    · cases hs

theorem run_after_return (sched : List (Tid × Env)) :
    ∀ s s' : Sys, Inv rsrc s → s.hbPc.terminated = true → run s sched = some s' →
      s'.wire = s.wire ∧ s'.hbPc = s.hbPc := by
  induction sched with
  | nil =>
    intro s s' _ _ hr
    simp only [run, Option.some.injEq] at hr
    subst hr
    exact ⟨rfl, rfl⟩
  | cons c rest ih =>
    intro s s' h ht hr
    obtain ⟨t, e⟩ := c
    simp only [run] at hr
    cases hst : step s t e with
    | none => simp [hst] at hr
    | some s1 =>
      simp only [hst] at hr
      obtain ⟨hw, hp⟩ := step_after_return s s1 t e h ht hst
      obtain ⟨hw', hp'⟩ := ih s1 s' (Inv_step s s1 t e h hst) (hp ▸ ht) hr
      exact ⟨hw'.trans hw, hp'.trans hp⟩

theorem Lock_spawned_eq_ret (cxn : Connection) (env : Env) :
    (Lock cxn env).spawned = (Lock cxn env).ret := by
  rw [Lock_shape cxn env]
  rfl

/-- C1 as stated fails: with every call succeeding, the four-byte reply
`o k NUL x` is not the two bytes `ok`, yet `Lock` returns true and creates the
heartbeat thread. -/
theorem Lock_accepts_nul_terminated_ok :
    (envOk replyOkNul).mallocOk = true ∧ (envOk replyOkNul).sendOk = true ∧
    (envOk replyOkNul).reply = some replyOkNul ∧ (envOk replyOkNul).createOk = true ∧
    replyOkNul ≠ litOk ∧
    (Lock demoCxn (envOk replyOkNul)).ret = true ∧
    (Lock demoCxn (envOk replyOkNul)).spawned = true := by
  decide

/-- C1 (amended): when the allocation, the LOCK send, the receive and the
thread start all succeed, `Lock` returns true if and only if the bytes of the
reply before its first NUL (all of it when it has none) are exactly `ok`; a
reply `ok` followed by a byte `c` is accepted exactly when `c` is NUL; and
whenever `Lock` returns false no heartbeat thread was created. -/
theorem Lock_true_iff_reply_string_ok (cxn : Connection) (env : Env) (body : List UInt8)
    (hm : env.mallocOk = true) (hs : env.sendOk = true) (hr : env.reply = some body)
    (hc : env.createOk = true) :
    ((Lock cxn env).ret = true ↔ cchars body = litOk) ∧
    (∀ c rest, body = litOk ++ c :: rest → ((Lock cxn env).ret = true ↔ c = 0)) ∧
    (body = [] → (Lock cxn env).ret = false) ∧
    ((Lock cxn env).ret = false → (Lock cxn env).spawned = false) := by
  have key : (Lock cxn env).ret = true ↔ cchars body = litOk := by
    rw [Lock_of_reply cxn env body hm hs hr, ← strcmp_recvbuf]
    by_cases h : strcmp (recvfrom (zeroed BUFSIZE) BUFSIZE body) (cstring litOk) = some 0
    · simp [h, hc, LockResult.ret]
    · simp [h, LockResult.ret]
  refine ⟨key, ?_, ?_, ?_⟩
  · intro c rest hb
    rw [key, hb]
    by_cases h0 : c = 0 <;> simp [cchars, litOk, List.takeWhile_cons, h0]
  · intro hb
    cases hret : (Lock cxn env).ret
    · rfl
    · have h := key.mp hret
      rw [hb] at h
      simp [cchars, litOk] at h
  · intro h
    rw [Lock_spawned_eq_ret, h]

/-- The amended C1 at resource id `42` and the reply `o k NUL x`. -/
theorem Lock_true_iff_reply_string_ok_witness :
    (envOk replyOkNul).mallocOk = true ∧ (envOk replyOkNul).sendOk = true ∧
    (envOk replyOkNul).reply = some replyOkNul ∧ (envOk replyOkNul).createOk = true ∧
    (((Lock demoCxn (envOk replyOkNul)).ret = true ↔ cchars replyOkNul = litOk) ∧
     (∀ c rest, replyOkNul = litOk ++ c :: rest →
        ((Lock demoCxn (envOk replyOkNul)).ret = true ↔ c = 0)) ∧
     (replyOkNul = [] → (Lock demoCxn (envOk replyOkNul)).ret = false) ∧
     ((Lock demoCxn (envOk replyOkNul)).ret = false →
        (Lock demoCxn (envOk replyOkNul)).spawned = false)) :=
  ⟨rfl, rfl, rfl, rfl,
    Lock_true_iff_reply_string_ok demoCxn (envOk replyOkNul) replyOkNul rfl rfl rfl rfl⟩

/-- C10: the request buffer of `Lock` has exactly the size `sprintf` fills,
but each of the two buffers of `heartbeat` is one byte shorter than what
`sprintf` writes into it: the terminating NUL lands past the allocation. -/
theorem heartbeat_buffers_one_byte_short (cxn : Connection) :
    (lockRequest cxn).1.bytes.length = (lockRequest cxn).1.cap ∧
    (lockRequest cxn).1.fits = true ∧
    (hbBuffers cxn).buf.cap = 4 + strlen cxn.resource ∧
    (hbBuffers cxn).buf.bytes.length = (hbBuffers cxn).buf.cap + 1 ∧
    (hbBuffers cxn).buf.fits = false ∧
    (hbBuffers cxn).buf2.cap = 6 + strlen cxn.resource ∧
    (hbBuffers cxn).buf2.bytes.length = (hbBuffers cxn).buf2.cap + 1 ∧
    (hbBuffers cxn).buf2.fits = false := by
  rw [lockRequest_eq, hbBuffers_eq]
  simp [Block.fits, strlen, litLOCK, litBEAT, litUNLOCK]
  omega

/-! ## Datagrams -/

theorem lockDgram_cstring (r : List UInt8) (h : ∀ b ∈ r, b ≠ 0) :
    lockDgram (cstring r) = litLOCK ++ r := lockPayload_eq r h false

theorem beatDgram_cstring (r : List UInt8) (h : ∀ b ∈ r, b ≠ 0) :
    beatDgram (cstring r) = litBEAT ++ r := beatPayload_eq r h false

theorem hbBuffers_len (r : List UInt8) (h : ∀ b ∈ r, b ≠ 0) (close : Bool) :
    (hbBuffers ⟨cstring r, close⟩).len = 4 + r.length ∧
    (hbBuffers ⟨cstring r, close⟩).len2 = 6 + r.length := by
  rw [hbBuffers_eq]
  simp [strlen_cstring r h]

theorem lockRequest_len (r : List UInt8) (h : ∀ b ∈ r, b ≠ 0) (close : Bool) :
    (lockRequest ⟨cstring r, close⟩).2 = 4 + r.length := by
  rw [lockRequest_eq]
  simp [strlen_cstring r h]

theorem Lock_sent_cstring (r : List UInt8) (h : ∀ b ∈ r, b ≠ 0) (close : Bool) (env : Env)
    (hm : env.mallocOk = true) (hs : env.sendOk = true) :
    (Lock ⟨cstring r, close⟩ env).sent = [litLOCK ++ r] := by
  rw [Lock_sent _ _ hm hs, lockPayload_eq r h close]

theorem step_main_lock (s s' : Sys) (e : Env) (hpc : s.mainPc = .l100 ∨ s.mainPc = .l139)
    (hs : step s .main e = some s') :
    s'.wire = s.wire ++ (Lock s.cxn e).sent.map (fun m => (Tid.main, m)) := by
  rcases hpc with hpc | hpc <;>
    simp only [step, main, Spinlock, hpc, Option.some.injEq] at hs <;> subst hs <;> rfl

theorem step_hb_beat (s s' : Sys) (e : Env) (hpc : s.hbPc = .l200) (he : e.sendOk = true)
    (hs : step s .hb e = some s') :
    s'.wire = s.wire ++ [(Tid.hb, payload s.locals.buf s.locals.len)] := by
  simp only [step, heartbeat, hpc, he, if_true, Option.some.injEq] at hs
  subst hs
  rfl

theorem step_hb_unlock (s s' : Sys) (e : Env) (hpc : s.hbPc = .l185) (he : e.sendOk = true)
    (hs : step s .hb e = some s') :
    s'.wire = s.wire ++ [(Tid.hb, payload s.locals.buf2 s.locals.len2)] := by
  simp only [step, heartbeat, hpc, he, if_true, Option.some.injEq] at hs
  subst hs
  rfl

/-- C2: for a NUL-free resource id `r`, the datagram a call of `Lock` hands to
`sendto` is exactly `LOCK` followed by `r`, of length `4 + |r|`; the datagram
of line 200 is exactly `BEAT` followed by `r`, of length `4 + |r|`; the
datagram of line 185 is exactly `UNLOCK` followed by `r`, of length `6 + |r|`;
a step that sends one of them appends exactly these bytes to the wire; and
none of them contains a NUL. -/
theorem payloads_are_keyword_then_resource (r : List UInt8) (hr : ∀ b ∈ r, b ≠ 0)
    (junk : Bool) (s s' : Sys) (t : Tid) (e : Env) (h : Reachable (cstring r) junk s)
    (hs : step s t e = some s') (hm : e.mallocOk = true) (hse : e.sendOk = true) :
    ((Lock s.cxn e).sent = [litLOCK ++ r] ∧ (lockRequest s.cxn).2 = 4 + r.length) ∧
    (payload (hbBuffers s.cxn).buf (hbBuffers s.cxn).len = litBEAT ++ r ∧
      (hbBuffers s.cxn).len = 4 + r.length) ∧
    (payload (hbBuffers s.cxn).buf2 (hbBuffers s.cxn).len2 = litUNLOCK ++ r ∧
      (hbBuffers s.cxn).len2 = 6 + r.length) ∧
    (t = .main → s.mainPc = .l100 ∨ s.mainPc = .l139 →
      s'.wire = s.wire ++ [(Tid.main, litLOCK ++ r)]) ∧
    (t = .hb → s.hbPc = .l200 →
      s'.wire = s.wire ++ [(Tid.hb, litBEAT ++ r)] ∧ s.locals.len = 4 + r.length) ∧
    (t = .hb → s.hbPc = .l185 →
      s'.wire = s.wire ++ [(Tid.hb, litUNLOCK ++ r)] ∧ s.locals.len2 = 6 + r.length) ∧
    (0 : UInt8) ∉ litLOCK ++ r ∧ (0 : UInt8) ∉ litBEAT ++ r ∧ (0 : UInt8) ∉ litUNLOCK ++ r := by
  have hinv := Inv_of_reachable h
  have hres : s.cxn = ⟨cstring r, s.cxn.close⟩ := by
    have := hinv.res
    cases hc : s.cxn
    simp_all
  have h0 : (0 : UInt8) ∉ r := fun hmem => hr 0 hmem rfl
  have hL : (Lock s.cxn e).sent = [litLOCK ++ r] := by
    rw [hres]
    exact Lock_sent_cstring r hr _ e hm hse
  have hB : payload (hbBuffers s.cxn).buf (hbBuffers s.cxn).len = litBEAT ++ r := by
    rw [hres]
    exact beatPayload_eq r hr _
  have hU : payload (hbBuffers s.cxn).buf2 (hbBuffers s.cxn).len2 = litUNLOCK ++ r := by
    rw [hres]
    exact unlockPayload_eq r hr _
  have hlen : (hbBuffers s.cxn).len = 4 + r.length ∧ (hbBuffers s.cxn).len2 = 6 + r.length := by
    rw [hres]
    exact hbBuffers_len r hr _
  have hLlen : (lockRequest s.cxn).2 = 4 + r.length := by
    rw [hres]
    exact lockRequest_len r hr _
  refine ⟨⟨hL, hLlen⟩, ⟨hB, hlen.1⟩, ⟨hU, hlen.2⟩, ?_, ?_, ?_, ?_, ?_, ?_⟩
  · intro ht hpc
    subst ht
    rw [step_main_lock s s' e hpc hs, hL]
    rfl
  · intro ht hpc
    subst ht
    have hl := hinv.locals (by simp [hpc, HbPc.hasLocals])
    rw [step_hb_beat s s' e hpc hse hs, hl, hB]
    exact ⟨rfl, hlen.1⟩
  · intro ht hpc
    subst ht
    have hl := hinv.locals (by simp [hpc, HbPc.hasLocals])
    rw [step_hb_unlock s s' e hpc hse hs, hl, hU]
    exact ⟨rfl, hlen.2⟩
  · simp [litLOCK, h0]
  · simp [litBEAT, h0]
  · simp [litUNLOCK, h0]

/-! ## The order of the datagrams -/

theorem mem_lockWire (rsrc : List UInt8) (log : List LockExit) (x : Tid × List UInt8)
    (hx : x ∈ lockWire rsrc log) : x = (Tid.main, lockDgram rsrc) := by
  induction log with
  | nil => simp [lockWire] at hx
  | cons a rest ih =>
    simp only [lockWire, List.mem_append] at hx
    rcases hx with hx | hx
    · split at hx <;> simp_all
    · exact ih hx

theorem filter_hb_lockWire (rsrc : List UInt8) (log : List LockExit) :
    (lockWire rsrc log).filter (fun m => m.1 == Tid.hb) = [] := by
  rw [List.filter_eq_nil_iff]
  intro x hx
  rw [mem_lockWire rsrc log x hx]
  simp

/-- C4: when the BEAT send of line 200 fails, the heartbeat thread returns at
once (line 203): the step sends nothing and leaves the flag as it was; the
flag was read as false at every check so far, the datagrams the thread has sent
are the `BEAT r` of the earlier iterations and nothing else, and whatever steps
follow, the thread stays returned and no datagram, in particular no `UNLOCK r`,
is sent. -/
theorem failed_beat_abandons_lease (r : List UInt8) (hr : ∀ b ∈ r, b ≠ 0) (junk : Bool)
    (s : Sys) (e : Env) (h : Reachable (cstring r) junk s)
    (hpc : s.hbPc = .l200) (hfail : e.sendOk = false) :
    ∃ s', step s .hb e = some s' ∧ s'.hbPc = .l203 ∧ s'.hbPc.terminated = true ∧
      s'.wire = s.wire ∧ s'.cxn.close = s.cxn.close ∧
      (∃ b, s.checkLog = List.replicate (b + 1) false ∧
            sentBy s' .hb = List.replicate b (litBEAT ++ r)) ∧
      ∀ sched s2, run s' sched = some s2 →
        s2.hbPc = .l203 ∧ s2.wire = s'.wire ∧ litUNLOCK ++ r ∉ s2.messages := by
  have hinv := Inv_of_reachable h
  have hstep : step s .hb e
      = some { s with sendErrs := s.sendErrs + 1, hbPc := .l203 } := by
    simp [step, heartbeat, hpc, hfail]
  have hshape := hinv.shape
  rw [hpc] at hshape
  simp only [hbShape] at hshape
  obtain ⟨b, hb1, hb2⟩ := hshape
  have hinv' := Inv_step _ _ _ _ hinv hstep
  have hUL : litUNLOCK ++ r ≠ litLOCK ++ r := by simp [litUNLOCK, litLOCK]
  have hUB : litUNLOCK ++ r ≠ litBEAT ++ r := by simp [litUNLOCK, litBEAT]
  refine ⟨_, hstep, rfl, rfl, rfl, rfl, ⟨b, hb1, ?_⟩, ?_⟩
  · simp only [sentBy, hb2, List.filter_append, filter_hb_lockWire, List.nil_append]
    simp [List.filter_replicate, beatDgram_cstring r hr]
  · intro sched s2 hrun
    obtain ⟨hw, hp⟩ := run_after_return sched _ s2 hinv' rfl hrun
    refine ⟨hp, hw, ?_⟩
    simp only [Sys.messages, hw, hb2, List.map_append, List.mem_append, List.mem_map, not_or]
    constructor
    · rintro ⟨x, hx, hx2⟩
      rw [mem_lockWire _ _ x hx, lockDgram_cstring r hr] at hx2
      exact hUL hx2.symm
    · rintro ⟨x, hx, hx2⟩
      rw [List.eq_of_mem_replicate hx, beatDgram_cstring r hr] at hx2
      exact hUB hx2.symm

/-- C5: when `Unlock` has returned (`main` is at line 106) the heartbeat
thread has returned, and whatever steps follow, it stays where it is and no
datagram is sent. -/
theorem unlock_returns_after_heartbeat (rsrc : List UInt8) (junk : Bool) (s : Sys)
    (h : Reachable rsrc junk s) (hret : s.mainPc = .l106) :
    s.hbPc.terminated = true ∧
    ∀ sched s', run s sched = some s' → s'.hbPc = s.hbPc ∧ s'.wire = s.wire := by
  have hinv := Inv_of_reachable h
  have ht := hinv.joined hret
  exact ⟨ht, fun sched s' hrun =>
    ⟨(run_after_return sched s s' hinv ht hrun).2, (run_after_return sched s s' hinv ht hrun).1⟩⟩

/-! ## The release flag and the mutex -/

theorem heartbeat_close (s s' : Sys) (e : Env) (hs : heartbeat s e = some s') :
    s'.cxn = s.cxn := by
  obtain ⟨cxn, mutex, mainPc, hbPc, locals, wire, lockLog, checkLog, sendErrs, mutexErrs⟩ := s
  cases hbPc <;> simp only [heartbeat] at hs
  · cases hs
  · split at hs <;> cases hs <;> rfl
  · cases hs
  · cases hq : mutexLock mutex Tid.hb e.mutexOk with
    | none => simp [hq] at hs
    | some m => simp only [hq, Option.some.injEq] at hs; subst hs; rfl
  · cases hs; rfl
  · split at hs <;> cases hs <;> rfl
  · cases hs; rfl
  · cases hs
  · cases hs; rfl
  · cases hs
  · cases hs; rfl
  · split at hs <;> cases hs <;> rfl
  · cases hs
  · cases hs; rfl

theorem Lock_cxn (cxn : Connection) (env : Env) : (Lock cxn env).cxn = cxn := by
  rw [Lock_shape cxn env]

theorem main_close (s s' : Sys) (e : Env) (hs : main s e = some s') :
    (s.mainPc = .l96 → s'.cxn.close = false) ∧
    (s.mainPc = .l150 → s'.cxn.close = true) ∧
    (s.mainPc ≠ .l96 → s.mainPc ≠ .l150 → s'.cxn = s.cxn) := by
  obtain ⟨cxn, mutex, mainPc, hbPc, locals, wire, lockLog, checkLog, sendErrs, mutexErrs⟩ := s
  cases mainPc <;> simp only [main, Spinlock, Unlock] at hs
  · cases hs; simp
  · cases hs; simp [afterLock, Lock_cxn]
  · cases hs; simp [afterLock, Lock_cxn]
  · cases hs; simp
  · cases hs; simp
  · cases hq : mutexLock mutex Tid.main e.mutexOk with
    | none => simp [hq] at hs
    | some m => simp only [hq, Option.some.injEq] at hs; subst hs; simp
  · cases hs; simp
  · cases hs; simp
  · split at hs <;> cases hs
    simp
  · cases hs

/-- C6: the flag is false once line 96 has run and stays false until the write
of line 150 in `Unlock`, which sets it to true; from then on it is true. Step
by step: line 96 leaves it false, line 150 finds it false and leaves it true,
and every other step of either thread, each call of `Lock` (whatever its exit)
and each step of the heartbeat loop among them, leaves it as it was; so after
line 96 no step takes it from true to false. -/
theorem release_flag_monotone (rsrc : List UInt8) (junk : Bool) (s s' : Sys) (t : Tid) (e : Env)
    (h : Reachable rsrc junk s) (hs : step s t e = some s') :
    (s.mainPc ≠ .l96 → s.cxn.close = s.mainPc.closeSet) ∧
    (s.mainPc = .l96 → t = .main ∧ s'.cxn.close = false) ∧
    (t = .main → s.mainPc = .l150 → s.cxn.close = false ∧ s'.cxn.close = true) ∧
    (¬ (t = .main ∧ (s.mainPc = .l96 ∨ s.mainPc = .l150)) → s'.cxn.close = s.cxn.close) ∧
    (s.mainPc ≠ .l96 → s.cxn.close = true → s'.cxn.close = true) ∧
    (∀ env, (Lock s.cxn env).cxn.close = s.cxn.close) := by
  have hinv := Inv_of_reachable h
  have hclose := hinv.close
  have hidle := hinv.idle_iff
  have hkeep : ¬ (t = .main ∧ (s.mainPc = .l96 ∨ s.mainPc = .l150)) →
      s'.cxn.close = s.cxn.close := by
    intro hn
    cases t with
    | hb => rw [heartbeat_close s s' e hs]
    | main =>
      have hm := main_close s s' e hs
      rw [hm.2.2 (fun h96 => hn ⟨rfl, Or.inl h96⟩) (fun h150 => hn ⟨rfl, Or.inr h150⟩)]
  refine ⟨hclose, ?_, ?_, hkeep, ?_, fun env => by rw [Lock_cxn]⟩
  · intro h96
    cases t with
    | hb =>
      have hi : s.hbPc = .idle := hidle.mpr (by simp [h96, MainPc.acquiring])
      simp [step, heartbeat, hi] at hs
    | main => exact ⟨rfl, (main_close s s' e hs).1 h96⟩
  · intro ht h150
    subst ht
    refine ⟨?_, (main_close s s' e hs).2.1 h150⟩
    rw [hclose (by simp [h150]), h150]
    rfl
  · intro hne htrue
    by_cases hw : t = .main ∧ s.mainPc = .l150
    · obtain ⟨ht, h150⟩ := hw
      subst ht
      exact (main_close s s' e hs).2.1 h150
    · rw [hkeep (fun hcon => hcon.2.elim (fun h96 => hne h96) (fun h150 => hw ⟨hcon.1, h150⟩)),
        htrue]

theorem acquired_iff (s : Sys) (hinv : Inv rsrc s) :
    acquired s = true ↔ s.mainPc.acquiring = false := by
  have hmem : acquired s = true ↔ LockExit.acquired ∈ s.lockLog := by simp [acquired]
  rw [hmem]
  constructor
  · intro hmem
    cases hq : s.mainPc.acquiring
    · rfl
    · exact absurd hmem (hinv.log_pre hq)
  · exact hinv.log_post

/-- C7 as stated fails: after an accepted `Lock` and a failed BEAT send the
heartbeat thread has returned, so none is running, although an acquire has
succeeded and `Unlock` has not even been called. -/
theorem abandoned_lease_has_no_heartbeat :
    run (init (cstring rid42) true) schedAbandon = some demoAbandoned ∧
    demoAbandoned.hbPc.running = false ∧
    acquired demoAbandoned = true ∧ released demoAbandoned = false := by
  decide

theorem main_hbPc (s s' : Sys) (e : Env) (hs : main s e = some s') :
    s'.hbPc = s.hbPc ∨ s'.hbPc = .l164 := by
  obtain ⟨cxn, mutex, mainPc, hbPc, locals, wire, lockLog, checkLog, sendErrs, mutexErrs⟩ := s
  cases mainPc <;> simp only [main, Spinlock, Unlock] at hs
  · cases hs; exact Or.inl rfl
  · cases hs
    simp only [afterLock]
    split
    · exact Or.inr rfl
    · exact Or.inl rfl
  · cases hs
    simp only [afterLock]
    split
    · exact Or.inr rfl
    · exact Or.inl rfl
  · cases hs; exact Or.inl rfl
  · cases hs; exact Or.inl rfl
  · cases hq : mutexLock mutex Tid.main e.mutexOk with
    | none => simp [hq] at hs
    | some m => simp only [hq, Option.some.injEq] at hs; subst hs; exact Or.inl rfl
  · cases hs; exact Or.inl rfl
  · cases hs; exact Or.inl rfl
  · split at hs <;> cases hs
    exact Or.inl rfl
  · cases hs

theorem heartbeat_to_l176 (s s' : Sys) (e : Env) (hs : heartbeat s e = some s')
    (h176 : s'.hbPc = .l176) :
    s.hbPc = .l164 ∧ (e.mallocOk && e.malloc2Ok) = false := by
  obtain ⟨cxn, mutex, mainPc, hbPc, locals, wire, lockLog, checkLog, sendErrs, mutexErrs⟩ := s
  cases hbPc <;> simp only [heartbeat] at hs
  · cases hs
  · cases hm : (e.mallocOk && e.malloc2Ok)
    · exact ⟨rfl, rfl⟩
    · simp only [hm, if_true, Option.some.injEq] at hs
      subst hs
      cases h176
  · cases hs
  · cases hq : mutexLock mutex Tid.hb e.mutexOk with
    | none => simp [hq] at hs
    | some m => simp only [hq, Option.some.injEq] at hs; subst hs; cases h176
  · cases hs
    simp only at h176
    split at h176 <;> cases h176
  · split at hs <;> cases hs <;> cases h176
  · cases hs; cases h176
  · cases hs
  · cases hs; cases h176
  · cases hs
  · cases hs; cases h176
  · split at hs <;> cases hs <;> cases h176
  · cases hs
  · cases hs; cases h176

/-- C7 (amended): in every reachable state, a heartbeat thread that is running
implies that an acquire has succeeded and `Unlock` has not returned; an acquire
has succeeded exactly when a heartbeat thread has been created; after an
acquire the thread is running as long as no `sendto` has failed, it has not
read the flag as true and it has not returned at line 176; when it is not
running after an acquire it has returned at line 176 before any flag read, at
line 203 after a failed send with the flag never read as true, at line 190
after a failed send with the flag read as true, or at line 196 with the flag
read as true; and the thread gets to line 176 only by a step of its entry
(line 164) in which an allocation fails. -/
theorem heartbeat_running_only_while_held (rsrc : List UInt8) (junk : Bool) (s : Sys)
    (h : Reachable rsrc junk s) :
    (s.hbPc.running = true → acquired s = true ∧ released s = false) ∧
    (acquired s = true ↔ s.hbPc ≠ .idle) ∧
    (acquired s = true → s.sendErrs = 0 → true ∉ s.checkLog → s.hbPc ≠ .l176 →
      s.hbPc.running = true) ∧
    (acquired s = true → s.hbPc.running = false →
      (s.hbPc = .l176 ∧ s.checkLog = []) ∨
      (s.hbPc = .l203 ∧ 0 < s.sendErrs ∧ true ∉ s.checkLog) ∨
      (s.hbPc = .l190 ∧ 0 < s.sendErrs ∧ true ∈ s.checkLog) ∨
      (s.hbPc = .l196 ∧ true ∈ s.checkLog)) ∧
    (∀ t e s', step s t e = some s' → s'.hbPc = .l176 → s.hbPc ≠ .l176 →
      t = .hb ∧ s.hbPc = .l164 ∧ (e.mallocOk && e.malloc2Ok) = false) := by
  have hinv := Inv_of_reachable h
  have hacq := acquired_iff s hinv
  have hidle := hinv.idle_iff
  have hj := hinv.joined
  have hshape := hinv.shape
  have herr := hinv.sendErr
  have hai : acquired s = true ↔ s.hbPc ≠ .idle := by
    rw [hacq, Ne, hidle]
    simp
  have hcause : acquired s = true → s.hbPc.running = false →
      (s.hbPc = .l176 ∧ s.checkLog = []) ∨
      (s.hbPc = .l203 ∧ 0 < s.sendErrs ∧ true ∉ s.checkLog) ∨
      (s.hbPc = .l190 ∧ 0 < s.sendErrs ∧ true ∈ s.checkLog) ∨
      (s.hbPc = .l196 ∧ true ∈ s.checkLog) := by
    intro ha hnr
    have hne := hai.mp ha
    cases hpc : s.hbPc <;> rw [hpc] at hshape herr hnr hne <;>
      simp only [HbPc.running, HbPc.terminated] at hnr <;>
      first
      | exact absurd rfl hne
      | exact absurd hnr (by decide)
      | skip
    · exact Or.inl ⟨rfl, hshape.1⟩
    · obtain ⟨b, hb1, _⟩ := hshape
      exact Or.inr (Or.inr (Or.inl ⟨rfl, herr rfl, by simp [hb1]⟩))
    · obtain ⟨b, hb1, _⟩ := hshape
      exact Or.inr (Or.inr (Or.inr ⟨rfl, by simp [hb1]⟩))
    · obtain ⟨b, hb1, _⟩ := hshape
      exact Or.inr (Or.inl ⟨rfl, herr rfl, by simp [hb1]⟩)
  refine ⟨?_, hai, ?_, hcause, ?_⟩
  · intro hrun
    have hne : s.hbPc ≠ .idle := by
      intro hi
      simp [HbPc.running, hi] at hrun
    refine ⟨hai.mpr hne, ?_⟩
    cases hr : released s
    · rfl
    · have h106 : s.mainPc = .l106 := by simpa [released] using hr
      have := hj h106
      simp [HbPc.running, this] at hrun
  · intro ha h0 hnt h176
    cases hrun : s.hbPc.running
    · exfalso
      rcases hcause ha hrun with h1 | h1 | h1 | h1
      · exact h176 h1.1
      · omega
      · omega
      · exact hnt h1.2
    · rfl
  · intro t e s' hs h176 hn
    cases t with
    | main =>
      exfalso
      rcases main_hbPc s s' e hs with h1 | h1
      · exact hn (h1 ▸ h176)
      · rw [h1] at h176
        cases h176
    | hb => exact ⟨rfl, heartbeat_to_l176 s s' e hs h176⟩

/-- Until a call of `Lock` has returned true no mutex call has been made. -/
theorem mutex_untouched_step (s s' : Sys) (t : Tid) (e : Env) (hinv : Inv rsrc s)
    (hp : s.mainPc.acquiring = true → s.mutexErrs = 0 ∧ s.mutex = none)
    (hs : step s t e = some s') :
    s'.mainPc.acquiring = true → s'.mutexErrs = 0 ∧ s'.mutex = none := by
  obtain ⟨cxn, mutex, mainPc, hbPc, locals, wire, lockLog, checkLog, sendErrs, mutexErrs⟩ := s
  have hidle := hinv.idle_iff
  simp only at hidle hp
  cases t with
  | hb =>
    cases hq : mainPc.acquiring
    · intro ha
      have hpc : s'.mainPc = mainPc := by
        cases hbPc <;> simp only [step, heartbeat] at hs <;>
          first
          | (cases hs; done)
          | (cases hs; rfl)
          | (split at hs <;> cases hs <;> rfl)
      rw [hpc, hq] at ha
      cases ha
    · rw [hidle.mpr hq] at hs
      simp [step, heartbeat] at hs
  | main =>
    cases mainPc <;> simp only [step, main, Spinlock, Unlock] at hs
    · cases hs; simpa [MainPc.acquiring] using hp
    · cases hs
      intro _
      simpa [afterLock, MainPc.acquiring] using hp
    · cases hs
      intro _
      simpa [afterLock, MainPc.acquiring] using hp
    · cases hs; simpa [MainPc.acquiring] using hp
    · cases hs; simp [MainPc.acquiring]
    · split at hs
      · cases hs
      · cases hs; simp [MainPc.acquiring]
    · cases hs; simp [MainPc.acquiring]
    · cases hs; simp [MainPc.acquiring]
    · split at hs <;> cases hs
      simp [MainPc.acquiring]
    · cases hs

theorem mutex_untouched_run (sched : List (Tid × Env)) :
    ∀ s s' : Sys, Inv rsrc s →
      (s.mainPc.acquiring = true → s.mutexErrs = 0 ∧ s.mutex = none) →
      run s sched = some s' →
      (s'.mainPc.acquiring = true → s'.mutexErrs = 0 ∧ s'.mutex = none) := by
  induction sched with
  | nil =>
    intro s s' _ hp hr
    simp only [run, Option.some.injEq] at hr
    exact hr ▸ hp
  | cons c rest ih =>
    intro s s' h hp hr
    obtain ⟨t, e⟩ := c
    simp only [run] at hr
    cases hst : step s t e with
    | none => simp [hst] at hr
    | some s1 =>
      simp only [hst] at hr
      exact ih s1 s' (Inv_step s s1 t e h hst) (mutex_untouched_step s s1 t e h hp hst) hr

theorem mutex_untouched {rsrc : List UInt8} {junk : Bool} {s : Sys}
    (h : Reachable rsrc junk s) (ha : s.mainPc.acquiring = true) :
    s.mutexErrs = 0 ∧ s.mutex = none := by
  obtain ⟨sched, hr⟩ := h
  exact mutex_untouched_run sched _ _ (Inv_init rsrc junk) (fun _ => ⟨rfl, rfl⟩) hr ha

/-- C8 as stated fails: the write of line 96 is made while `main` does not hold
the mutex; and when the `pthread_mutex_lock` call of `Unlock` returns an error,
`Unlock` goes on to write the flag without the mutex, here while the heartbeat
thread holds it and is about to read the flag. -/
theorem flag_written_without_mutex :
    flagAccess (init (cstring rid42) true) .main = true ∧
    (init (cstring rid42) true).mutex ≠ some .main ∧
    run (init (cstring rid42) true) schedLockFails = some demoLockFailed ∧
    flagAccess demoLockFailed .main = true ∧ flagAccess demoLockFailed .hb = true ∧
    demoLockFailed.mutex = some .hb := by
  decide

/-- C8 (amended): as long as no mutex call has returned an error, every read
or write of the flag after line 96 (line 150 in `Unlock`, line 184 in
`heartbeat`) is made by a thread that holds the mutex; the write of line 96 is
made with the mutex free, before a heartbeat thread exists. -/
theorem flag_access_holds_mutex (rsrc : List UInt8) (junk : Bool) (s : Sys) (t : Tid)
    (h : Reachable rsrc junk s) :
    (s.mutexErrs = 0 → s.mainPc ≠ .l96 → flagAccess s t = true → s.mutex = some t) ∧
    (s.mainPc = .l96 → s.hbPc = .idle ∧ s.mutex = none) := by
  have hinv := Inv_of_reachable h
  have hm := hinv.mutex
  have hx := hinv.excl
  have hidle := hinv.idle_iff
  constructor
  · intro h0 hne hacc
    rw [hm h0]
    cases t with
    | main =>
      have h150 : s.mainPc = .l150 := by simpa [flagAccess, hne] using hacc
      simp [ownerAt, h150, MainPc.critical]
    | hb =>
      have h184 : s.hbPc = .l184 := by simpa [flagAccess] using hacc
      have hc : s.mainPc.critical = false := by
        cases hq : s.mainPc.critical
        · rfl
        · exact absurd ⟨hq, by simp [h184, HbPc.critical]⟩ (hx h0)
      simp [ownerAt, h184, HbPc.critical, hc]
  · intro h96
    have hi : s.hbPc = .idle := hidle.mpr (by simp [h96, MainPc.acquiring])
    exact ⟨hi, (mutex_untouched h (by simp [h96, MainPc.acquiring])).2⟩

/-- C9: as long as no mutex call has returned an error, the heartbeat thread
holds the mutex exactly at lines 184 to 198 (the flag test, the UNLOCK send and
the unlock calls that follow them); it does not hold it at the BEAT send of
line 200 nor during the sleep of line 205, and it does not hold it once it has
returned, whichever `return` it took; so when it has returned and `Unlock`
calls `pthread_mutex_lock`, the call takes the mutex without waiting. -/
theorem heartbeat_holds_mutex_only_around_test (rsrc : List UInt8) (junk : Bool) (s : Sys)
    (h : Reachable rsrc junk s) (h0 : s.mutexErrs = 0) :
    (s.mutex = some .hb ↔ s.hbPc.critical = true) ∧
    (s.hbPc = .l200 ∨ s.hbPc = .l205 → s.mutex ≠ some .hb) ∧
    (s.hbPc.terminated = true → s.mutex ≠ some .hb) ∧
    (s.hbPc.terminated = true → s.mainPc = .l148 → ∀ e : Env, e.mutexOk = true →
      ∃ s', step s .main e = some s' ∧ s'.mainPc = .l150 ∧ s'.mutex = some .main) := by
  have hinv := Inv_of_reachable h
  have hm := hinv.mutex h0
  have hx := hinv.excl h0
  have key : s.mutex = some .hb ↔ s.hbPc.critical = true := by
    rw [hm]
    cases hc : s.mainPc.critical <;> cases hh : s.hbPc.critical <;> simp [ownerAt, hc, hh]
    exact hx ⟨hc, hh⟩
  refine ⟨key, ?_, ?_, ?_⟩
  · intro hpc hmut
    have := key.mp hmut
    rcases hpc with hpc | hpc <;> simp [hpc, HbPc.critical] at this
  · intro ht hmut
    have := key.mp hmut
    cases hpc : s.hbPc <;> simp [hpc, HbPc.critical, HbPc.terminated] at this ht
  · intro ht h148 e he
    have hfree : s.mutex = none := by
      rw [hm]
      cases hpc : s.hbPc <;> simp [hpc, HbPc.terminated] at ht <;>
        simp [ownerAt, h148, MainPc.critical, HbPc.critical]
    exact ⟨_, by simp only [step, main, Unlock, h148, mutexLock, he, hfree, if_true]; rfl, rfl, rfl⟩

/-! ## The theorems at concrete states -/

/-- C2 at resource id `42`, on the step that sends the first BEAT. -/
theorem payloads_are_keyword_then_resource_witness :
    (∀ b ∈ rid42, b ≠ 0) ∧ Reachable (cstring rid42) true demoAtBeat ∧
    step demoAtBeat .hb (envOk []) = some demoAfterBeat ∧
    (envOk []).mallocOk = true ∧ (envOk []).sendOk = true ∧
    (((Lock demoAtBeat.cxn (envOk [])).sent = [litLOCK ++ rid42] ∧
        (lockRequest demoAtBeat.cxn).2 = 4 + rid42.length) ∧
     (payload (hbBuffers demoAtBeat.cxn).buf (hbBuffers demoAtBeat.cxn).len = litBEAT ++ rid42 ∧
        (hbBuffers demoAtBeat.cxn).len = 4 + rid42.length) ∧
     (payload (hbBuffers demoAtBeat.cxn).buf2 (hbBuffers demoAtBeat.cxn).len2
          = litUNLOCK ++ rid42 ∧
        (hbBuffers demoAtBeat.cxn).len2 = 6 + rid42.length) ∧
     (Tid.hb = .main → demoAtBeat.mainPc = .l100 ∨ demoAtBeat.mainPc = .l139 →
        demoAfterBeat.wire = demoAtBeat.wire ++ [(Tid.main, litLOCK ++ rid42)]) ∧
     (Tid.hb = .hb → demoAtBeat.hbPc = .l200 →
        demoAfterBeat.wire = demoAtBeat.wire ++ [(Tid.hb, litBEAT ++ rid42)] ∧
        demoAtBeat.locals.len = 4 + rid42.length) ∧
     (Tid.hb = .hb → demoAtBeat.hbPc = .l185 →
        demoAfterBeat.wire = demoAtBeat.wire ++ [(Tid.hb, litUNLOCK ++ rid42)] ∧
        demoAtBeat.locals.len2 = 6 + rid42.length) ∧
     (0 : UInt8) ∉ litLOCK ++ rid42 ∧ (0 : UInt8) ∉ litBEAT ++ rid42 ∧
     (0 : UInt8) ∉ litUNLOCK ++ rid42) :=
  ⟨by decide, ⟨schedToBeat, by decide⟩, by decide, rfl, rfl,
    payloads_are_keyword_then_resource rid42 (by decide) true demoAtBeat demoAfterBeat .hb
      (envOk []) ⟨schedToBeat, by decide⟩ (by decide) rfl rfl⟩

/-- C4 at resource id `42`, the first BEAT send failing. -/
theorem failed_beat_abandons_lease_witness :
    (∀ b ∈ rid42, b ≠ 0) ∧ Reachable (cstring rid42) true demoAtBeat ∧
    demoAtBeat.hbPc = .l200 ∧ envFail.sendOk = false ∧
    (∃ s', step demoAtBeat .hb envFail = some s' ∧ s'.hbPc = .l203 ∧
      s'.hbPc.terminated = true ∧
      s'.wire = demoAtBeat.wire ∧ s'.cxn.close = demoAtBeat.cxn.close ∧
      (∃ b, demoAtBeat.checkLog = List.replicate (b + 1) false ∧
            sentBy s' .hb = List.replicate b (litBEAT ++ rid42)) ∧
      ∀ sched s2, run s' sched = some s2 →
        s2.hbPc = .l203 ∧ s2.wire = s'.wire ∧ litUNLOCK ++ rid42 ∉ s2.messages) :=
  ⟨by decide, ⟨schedToBeat, by decide⟩, by decide, rfl,
    failed_beat_abandons_lease rid42 (by decide) true demoAtBeat envFail
      ⟨schedToBeat, by decide⟩ (by decide) rfl⟩

/-- C5 at the end of the session on resource id `42`. -/
theorem unlock_returns_after_heartbeat_witness :
    Reachable (cstring rid42) true demoDone ∧ demoDone.mainPc = .l106 ∧
    (demoDone.hbPc.terminated = true ∧
     ∀ sched s', run demoDone sched = some s' →
       s'.hbPc = demoDone.hbPc ∧ s'.wire = demoDone.wire) :=
  ⟨⟨schedSession, by decide⟩, by decide,
    unlock_returns_after_heartbeat (cstring rid42) true demoDone ⟨schedSession, by decide⟩
      (by decide)⟩

/-- C6 at the step of line 150 in the session on resource id `42`. -/
theorem release_flag_monotone_witness :
    Reachable (cstring rid42) true demoAtWrite ∧
    step demoAtWrite .main (envOk []) = some demoAfterWrite ∧
    ((demoAtWrite.mainPc ≠ .l96 → demoAtWrite.cxn.close = demoAtWrite.mainPc.closeSet) ∧
     (demoAtWrite.mainPc = .l96 → Tid.main = .main ∧ demoAfterWrite.cxn.close = false) ∧
     (Tid.main = .main → demoAtWrite.mainPc = .l150 →
        demoAtWrite.cxn.close = false ∧ demoAfterWrite.cxn.close = true) ∧
     (¬ (Tid.main = .main ∧ (demoAtWrite.mainPc = .l96 ∨ demoAtWrite.mainPc = .l150)) →
        demoAfterWrite.cxn.close = demoAtWrite.cxn.close) ∧
     (demoAtWrite.mainPc ≠ .l96 → demoAtWrite.cxn.close = true →
        demoAfterWrite.cxn.close = true) ∧
     (∀ env, (Lock demoAtWrite.cxn env).cxn.close = demoAtWrite.cxn.close)) :=
  ⟨⟨schedToWrite, by decide⟩, by decide,
    release_flag_monotone (cstring rid42) true demoAtWrite demoAfterWrite .main (envOk [])
      ⟨schedToWrite, by decide⟩ (by decide)⟩

/-- The amended C7 at the abandoned lease on resource id `42` (the thread has
returned at line 203 after a failed send), and at the state before the failing
send, where the thread is running. -/
theorem heartbeat_running_only_while_held_witness :
    Reachable (cstring rid42) true demoAbandoned ∧
    demoAbandoned.hbPc = .l203 ∧ demoAbandoned.sendErrs = 1 ∧
    ((demoAbandoned.hbPc.running = true →
        acquired demoAbandoned = true ∧ released demoAbandoned = false) ∧
     (acquired demoAbandoned = true ↔ demoAbandoned.hbPc ≠ .idle) ∧
     (acquired demoAbandoned = true → demoAbandoned.sendErrs = 0 →
        true ∉ demoAbandoned.checkLog → demoAbandoned.hbPc ≠ .l176 →
        demoAbandoned.hbPc.running = true) ∧
     (acquired demoAbandoned = true → demoAbandoned.hbPc.running = false →
        (demoAbandoned.hbPc = .l176 ∧ demoAbandoned.checkLog = []) ∨
        (demoAbandoned.hbPc = .l203 ∧ 0 < demoAbandoned.sendErrs ∧
          true ∉ demoAbandoned.checkLog) ∨
        (demoAbandoned.hbPc = .l190 ∧ 0 < demoAbandoned.sendErrs ∧
          true ∈ demoAbandoned.checkLog) ∨
        (demoAbandoned.hbPc = .l196 ∧ true ∈ demoAbandoned.checkLog)) ∧
     (∀ t e s', step demoAbandoned t e = some s' → s'.hbPc = .l176 →
        demoAbandoned.hbPc ≠ .l176 →
        t = .hb ∧ demoAbandoned.hbPc = .l164 ∧ (e.mallocOk && e.malloc2Ok) = false)) ∧
    Reachable (cstring rid42) true demoAtBeat ∧ acquired demoAtBeat = true ∧
    demoAtBeat.sendErrs = 0 ∧ true ∉ demoAtBeat.checkLog ∧ demoAtBeat.hbPc ≠ .l176 ∧
    demoAtBeat.hbPc.running = true :=
  ⟨⟨schedAbandon, by decide⟩, by decide, by decide,
    heartbeat_running_only_while_held (cstring rid42) true demoAbandoned
      ⟨schedAbandon, by decide⟩,
    ⟨schedToBeat, by decide⟩, by decide, by decide, by decide, by decide,
    (heartbeat_running_only_while_held (cstring rid42) true demoAtBeat
      ⟨schedToBeat, by decide⟩).2.2.1 (by decide) (by decide) (by decide) (by decide)⟩

/-- The amended C8 at line 150 of the session on resource id `42`. -/
theorem flag_access_holds_mutex_witness :
    Reachable (cstring rid42) true demoAtWrite ∧
    ((demoAtWrite.mutexErrs = 0 → demoAtWrite.mainPc ≠ .l96 →
        flagAccess demoAtWrite .main = true → demoAtWrite.mutex = some .main) ∧
     (demoAtWrite.mainPc = .l96 → demoAtWrite.hbPc = .idle ∧ demoAtWrite.mutex = none)) :=
  ⟨⟨schedToWrite, by decide⟩,
    flag_access_holds_mutex (cstring rid42) true demoAtWrite .main ⟨schedToWrite, by decide⟩⟩

/-- C9 at the abandoned lease on resource id `42`, `Unlock` about to lock the mutex. -/
theorem heartbeat_holds_mutex_only_around_test_witness :
    Reachable (cstring rid42) true demoAbandoned ∧ demoAbandoned.mutexErrs = 0 ∧
    ((demoAbandoned.mutex = some .hb ↔ demoAbandoned.hbPc.critical = true) ∧
     (demoAbandoned.hbPc = .l200 ∨ demoAbandoned.hbPc = .l205 →
        demoAbandoned.mutex ≠ some .hb) ∧
     (demoAbandoned.hbPc.terminated = true → demoAbandoned.mutex ≠ some .hb) ∧
     (demoAbandoned.hbPc.terminated = true → demoAbandoned.mainPc = .l148 →
        ∀ e : Env, e.mutexOk = true →
          ∃ s', step demoAbandoned .main e = some s' ∧ s'.mainPc = .l150 ∧
            s'.mutex = some .main)) :=
  ⟨⟨schedAbandon, by decide⟩, by decide,
    heartbeat_holds_mutex_only_around_test (cstring rid42) true demoAbandoned
      ⟨schedAbandon, by decide⟩ (by decide)⟩

end Distrex
